import Mathlib

/-!
Verification development for the ipfs-artifact-fetcher repository.

The development shallowly embeds the artifact retrieval pipeline:
the retry utilities (retry-utils.ts), the variant catalog and path
derivation, the artifact store collaborator, the in-memory artifact
cache, and the several ArtifactDownloader implementations found in the
sources (the verified-fetch class, the helia-http class, and the
gateway-fallback functions in artifact-downloader.ts).

Bytes are modeled as List Nat.  Delays are modeled as rationals.
The network transport is modeled as a function from the running
transport-call counter to a response; the Brotli codec is an external
library and is modeled as an abstract function parameter.  Effectful
methods become explicit state passing over DLState, and async
concurrency (Promise.all) is modeled as sequential left-to-right
execution of the three kind-fetches.
-/

set_option maxRecDepth 4000

/-- The four artifact kinds of the ArtifactName enum in definitions.ts. -/
inductive ArtifactName where
  | ZKEY
  | WASM
  | VKEY
  | DAT
deriving DecidableEq

/-- The string value of each ArtifactName enum member. -/
def ArtifactName.str : ArtifactName → String
  | .ZKEY => "zkey"
  | .WASM => "wasm"
  | .VKEY => "vkey"
  | .DAT => "dat"

/-- Root CID for the standard RAILGUN artifact catalog (definitions.ts). -/
def RAILGUN_ARTIFACTS_CID_ROOT : String := "QmUsmnK4PFc7zDp2cmC4wBZxYLjNyRgWfs5GNcJJ2uLcpU"

/-- Root CID for the PPOI artifact catalog (definitions.ts). -/
def PPOI_ARTIFACTS_CID : String := "QmZrP9zaZw2LwErT2yA6VpMWm65UdToQiKj4DtStVsUJHr"

/-- The PPOI variant marker string.  The source constant is named
ARTIFACT_VARIANT_STRING_PPOI_PREFIX in definitions.ts and holds "POI". -/
def PPOI_VARIANT_STR : String := "POI"

/-- The two valid PPOI artifact variants (definitions.ts). -/
def VALID_PPOI_ARTIFACT_VARIANT : List String :=
  [PPOI_VARIANT_STR ++ "_3x3", PPOI_VARIANT_STR ++ "_13x13"]

/-- The enumerated valid standard RAILGUN artifact variants (definitions.ts). -/
def VALID_RAILGUN_ARTIFACT_VARIANTS : List String :=
  ["01x01", "01x02", "01x03", "01x04", "01x05", "01x06", "01x07", "01x08", "01x09",
   "01x10", "01x11", "01x12", "01x13",
   "02x01", "02x02", "02x03", "02x04", "02x05", "02x06", "02x07", "02x08", "02x09",
   "02x10", "02x11", "02x12",
   "03x01", "03x02", "03x03", "03x04", "03x05", "03x06", "03x07", "03x08", "03x09",
   "03x10", "03x11",
   "04x01", "04x02", "04x03", "04x04", "04x05", "04x06", "04x07", "04x08", "04x09",
   "04x10",
   "05x01", "05x02", "05x03", "05x04", "05x05", "05x06", "05x07", "05x08", "05x09",
   "06x01", "06x02", "06x03", "06x04", "06x05", "06x06", "06x07", "06x08",
   "07x01", "07x02", "07x03", "07x04", "07x05", "07x06", "07x07",
   "08x01", "08x02", "08x03", "08x04", "08x05", "08x06",
   "09x01", "09x02", "09x03", "09x04", "09x05",
   "10x01", "10x02", "10x03", "10x04",
   "11x01", "11x02", "11x03",
   "12x01", "12x02",
   "13x01"]

/-- RETRYABLE_STATUS_CODES from definitions.ts. -/
def RETRYABLE_STATUS_CODES : List Nat := [429, 503, 504]

/-- isRetryableStatusCode from retry-utils.ts: membership in the
retryable status code list. -/
def isRetryableStatusCode (statusCode : Nat) : Bool :=
  RETRYABLE_STATUS_CODES.contains statusCode

/-- calculateRetryDelay from retry-utils.ts.  The rand argument models the
value drawn from Math.random for this attempt, a number in [0, 1). -/
def calculateRetryDelay (attempt : Nat) (baseDelayMs : ℚ) (addJitter : Bool) (rand : ℚ) : ℚ :=
  2 ^ attempt * baseDelayMs + (if addJitter then rand * baseDelayMs else 0)

/-- Checks whether the first list is an initial segment of the second. -/
def listStarts : List Char → List Char → Bool
  | [], _ => true
  | _ :: _, [] => false
  | p :: ps, c :: cs => p = c && listStarts ps cs

/-- Numeric value of a run of decimal digit characters, as parseInt reads it. -/
def digitsVal (l : List Char) : Nat :=
  l.foldl (fun acc c => acc * 10 + (c.toNat - 48)) 0

/-- The first match of the regular expression status:(\d+) in a character
list: scans for the literal "status:" immediately followed by at least one
digit and returns the maximal digit run there. -/
def statusCodeMatch : List Char → Option Nat
  | [] => none
  | c :: rest =>
    if listStarts "status:".data (c :: rest) &&
        (((c :: rest).drop 7).headD ' ').isDigit then
      some (digitsVal (((c :: rest).drop 7).takeWhile (fun d => d.isDigit)))
    else
      statusCodeMatch rest

/-- ipfsRetryHandler from retry-utils.ts, on the message string of the error:
if the message contains "status:" followed by digits, the decision is
isRetryableStatusCode of the parsed code; otherwise the error is treated as a
network error and retried. -/
def ipfsRetryHandler (message : String) : Bool :=
  match statusCodeMatch message.data with
  | some code => isRetryableStatusCode code
  | none => true

/-- The errors thrown by the pipeline.  Each constructor corresponds to one
throw site in the sources; the message function below reproduces the message
strings that matter to the retry classifier. -/
inductive DLError where
  | pathTraversal (variant : String)
  | invalidPPOIVariant (variant : String)
  | invalidRailgunVariant (variant : String)
  | invalidPOIIpfsPath (variant : String)
  | notInitialized
  | network (msg : String)
  | httpRetryable (code : Nat) (text : String)
  | httpFailed (code : Nat) (text : String)
  | cachedReadFailed (path : String)
  | noHashesForVariant (name : ArtifactName) (variant : String)
  | noVkeyHash
  | noHashForArtifact (name : ArtifactName) (variant : String)
  | integrityMismatch (name : ArtifactName) (variant : String) (got expected : String)
  | invalidHashResult (name : ArtifactName) (variant : String)
  | fetchFailedAfter (name : ArtifactName) (variant : String) (attempts : Nat) (cause : DLError)
  | ipfsFetchFailed (name : ArtifactName) (variant : String) (cause : DLError)
deriving DecidableEq

/-- The message string of each error, as built at the corresponding throw
site.  Only the messages of the errors raised inside the retried fetch
closure are inspected by the retry classifier; the others are reproduced for
completeness. -/
def DLError.message : DLError → String
  | .pathTraversal v => "Invalid artifact variant: contains path traversal characters: " ++ v
  | .invalidPPOIVariant v => "Invalid PPOI artifact variant: " ++ v
  | .invalidRailgunVariant v => "Invalid RAILGUN artifact variant: " ++ v
  | .invalidPOIIpfsPath v => "Invalid POI artifact variant: " ++ v
  | .notInitialized => "Verified fetch not initialized"
  | .network msg => msg
  | .httpRetryable code text =>
      "Retryable fetch error status:" ++ Nat.repr code ++ " " ++ text
  | .httpFailed code text => "Failed to fetch: " ++ Nat.repr code ++ " " ++ text
  | .cachedReadFailed p => "Failed to read cached artifact: " ++ p
  | .noHashesForVariant _ v => "No hashes for variant: " ++ v
  | .noVkeyHash => "There are no artifact hashes for vkey."
  | .noHashForArtifact _ v => "No hash for artifact: " ++ v
  | .integrityMismatch _ v got expected =>
      "Validate artifact blob for " ++ v ++ ". Got " ++ got ++ ", expected " ++ expected ++ "."
  | .invalidHashResult _ v => "Invalid hash for artifact download for " ++ v ++ "."
  | .fetchFailedAfter _ v attempts cause =>
      "IPFS fetch failed for (" ++ v ++ ") after " ++ Nat.repr attempts ++ " attempts: " ++
        cause.message
  | .ipfsFetchFailed _ v cause => "IPFS fetch failed for (" ++ v ++ "): " ++ cause.message

/-- shouldRetry as configured by the verified-fetch downloader: the
ipfsRetryHandler applied to the error message. -/
def ipfsShouldRetry (e : DLError) : Bool :=
  ipfsRetryHandler e.message

/-- Trace of one withRetry run: the final result, the threaded state, the
number of times the operation was executed, and the delays slept between
attempts. -/
structure RetryTrace (ε α σ : Type) where
  result : Except ε α
  state : σ
  calls : Nat
  delays : List ℚ

/-- The loop body of withRetry from retry-utils.ts, with the operation as a
state-passing function.  fuel is maxRetries minus the current attempt index,
so fuel = 0 exactly when attempt = maxRetries.  Faithful detail: after a
failed attempt the loop always continues to the next attempt; the
shouldRetry classifier only decides whether a backoff delay is slept first
(in the source the false branch merely skips the setTimeout). -/
def withRetryGo {ε α σ : Type} (fn : σ → Except ε α × σ) (shouldRetry : ε → Bool)
    (baseDelayMs : ℚ) (addJitter : Bool) (rand : Nat → ℚ) :
    Nat → Nat → σ → RetryTrace ε α σ
  | attempt, fuel, s =>
    match fn s with
    | (.ok a, s1) => ⟨.ok a, s1, 1, []⟩
    | (.error e, s1) =>
      match fuel with
      | 0 => ⟨.error e, s1, 1, []⟩
      | fuel1 + 1 =>
        let ds := if shouldRetry e then
            [calculateRetryDelay attempt baseDelayMs addJitter (rand attempt)]
          else []
        let rest := withRetryGo fn shouldRetry baseDelayMs addJitter rand (attempt + 1) fuel1 s1
        ⟨rest.result, rest.state, rest.calls + 1, ds ++ rest.delays⟩

/-- withRetry from retry-utils.ts: run the operation with up to maxRetries
retries, starting at attempt 0. -/
def withRetry {ε α σ : Type} (fn : σ → Except ε α × σ) (shouldRetry : ε → Bool)
    (baseDelayMs : ℚ) (addJitter : Bool) (rand : Nat → ℚ) (maxRetries : Nat)
    (s : σ) : RetryTrace ε α σ :=
  withRetryGo fn shouldRetry baseDelayMs addJitter rand 0 maxRetries s

/-- withRetry applied to an operation whose state is the count of executions
performed so far, so that the k-th execution (0-indexed) returns g k.  This
instruments an arbitrary operation for counting; the delay parameters do not
influence results or call counts. -/
def withRetryIx {ε α : Type} (g : Nat → Except ε α) (shouldRetry : ε → Bool)
    (maxRetries : Nat) : RetryTrace ε α Nat :=
  withRetry (fun n => (g n, n + 1)) shouldRetry 1 false (fun _ => 0) maxRetries 0

/-- Lookup in an association list keyed by strings (first match). -/
def storeLookup : List (String × List Nat) → String → Option (List Nat)
  | [], _ => none
  | (q, d) :: rest, p => if q = p then some d else storeLookup rest p

/-- Insert into an association list keyed by strings: replace the value of an
existing key in place or append a new entry, as a JS Map set does. -/
def storeInsert : List (String × List Nat) → String → List Nat → List (String × List Nat)
  | [], p, d => [(p, d)]
  | (q, e) :: rest, p, d =>
    if q = p then (q, d) :: rest else (q, e) :: storeInsert rest p d

/-- State of a downloader instance: the artifact store contents, whether the
transport (verified fetch or Helia node) has been initialized, and counters
of transport calls and store operations performed. -/
structure DLState where
  store : List (String × List Nat)
  inited : Bool
  transportCalls : Nat
  storeCalls : Nat
deriving DecidableEq

/-- store.exists: reports whether the key is present; counts one store
operation. -/
def stExists (st : DLState) (p : String) : Bool × DLState :=
  ((storeLookup st.store p).isSome, { st with storeCalls := st.storeCalls + 1 })

/-- store.get: reads the bytes at a key; counts one store operation. -/
def stGet (st : DLState) (p : String) : Option (List Nat) × DLState :=
  (storeLookup st.store p, { st with storeCalls := st.storeCalls + 1 })

/-- store.store: writes bytes under a key.  The directory argument is used by
the filesystem store only to create parent directories and does not affect
the key-value contents. -/
def stStore (st : DLState) (_dir p : String) (d : List Nat) : DLState :=
  { st with store := storeInsert st.store p d, storeCalls := st.storeCalls + 1 }

/-- One response of the network transport for one fetch call. -/
inductive NetResponse where
  | ok (body : List Nat)
  | httpError (code : Nat) (text : String)
  | netFail (msg : String)

/-- node:path basename, as used by the verified-fetch downloader: trailing
slashes are ignored and the segment after the last remaining slash is
returned. -/
def basename (s : String) : String :=
  let cs := s.data.reverse.dropWhile (fun c => c = '/')
  String.mk ((cs.takeWhile (fun c => c ≠ '/')).reverse)

/-- decompressArtifact (also decompressIfNeeded in brotli-decompress.ts):
vkey artifacts are returned unchanged, every other kind is passed through
the Brotli decodec.  The brotli argument models the external library
function. -/
def decompressArtifact (brotli : List Nat → List Nat) (data : List Nat)
    (name : ArtifactName) : List Nat :=
  if name = ArtifactName.VKEY then data else brotli data

/-- The local store file name of each artifact kind, the last segment of
artifactDownloadsPath in every downloader implementation. -/
def storeFileName : ArtifactName → String
  | .WASM => "wasm"
  | .ZKEY => "zkey"
  | .VKEY => "vkey.json"
  | .DAT => "dat"

/-! Verified-fetch downloader (the ArtifactDownloader class configured with
createVerifiedFetch).  Names of its members carry the VF marker. -/

/-- isPPOIartifactVariant of the verified-fetch class: membership in the
valid PPOI variant list. -/
def isPPOIartifactVariantVF (v : String) : Bool :=
  VALID_PPOI_ARTIFACT_VARIANT.contains v

/-- artifactDownloadsDir of the verified-fetch class: rejects a variant
string that is not its own basename, then selects the PPOI or standard
subdirectory of the versioned root. -/
def artifactDownloadsDirVF (v : String) : Except DLError String :=
  if basename v ≠ v then .error (.pathTraversal v)
  else if isPPOIartifactVariantVF v then .ok ("artifacts-v2.1/ppoi-nov-2-23/" ++ v)
  else .ok ("artifacts-v2.1/" ++ v)

/-- artifactDownloadsPath of the verified-fetch class: the downloads
directory of the variant, slash, the kind file name. -/
def artifactDownloadsPathVF (name : ArtifactName) (v : String) : Except DLError String :=
  match artifactDownloadsDirVF v with
  | .error e => .error e
  | .ok dir => .ok (dir ++ "/" ++ storeFileName name)

/-- getIPFSpathForArtifactName of the verified-fetch class (no validation in
this implementation). -/
def getIPFSpathVF (name : ArtifactName) (v : String) : String :=
  if isPPOIartifactVariantVF v then
    match name with
    | .WASM => v ++ "/wasm.br"
    | .ZKEY => v ++ "/zkey.br"
    | .VKEY => v ++ "/vkey.json"
    | .DAT => v ++ "/dat.br"
  else
    match name with
    | .WASM => "prover/snarkjs/" ++ v ++ "." ++ name.str ++ ".br"
    | .DAT => "prover/native/" ++ v ++ "." ++ name.str ++ ".br"
    | .ZKEY => "circuits/" ++ v ++ "/" ++ name.str ++ ".br"
    | .VKEY => "circuits/" ++ v ++ "/" ++ name.str ++ ".json"

/-- initVerifiedFetch: lazily creates the transport.  Creation by the
external library is modeled as always succeeding. -/
def initVerifiedFetch (st : DLState) : DLState :=
  { st with inited := true }

/-- One execution of the closure passed to withRetry inside fetchFromIPFS of
the verified-fetch class: fail if the transport is gone, perform one
transport call, classify a non-ok response by status code, and on a 2xx
response decompress and persist the artifact and return the decompressed
bytes. -/
def fetchAttemptVF (brotli : List Nat → List Nat) (net : Nat → NetResponse)
    (name : ArtifactName) (dir storePath : String) (st : DLState) :
    Except DLError (List Nat) × DLState :=
  if st.inited = false then (.error .notInitialized, st)
  else
    match net st.transportCalls with
    | .netFail msg =>
      (.error (.network msg), { st with transportCalls := st.transportCalls + 1 })
    | .httpError code text =>
      if isRetryableStatusCode code then
        (.error (.httpRetryable code text), { st with transportCalls := st.transportCalls + 1 })
      else
        (.error (.httpFailed code text), { st with transportCalls := st.transportCalls + 1 })
    | .ok body =>
      let st1 := { st with transportCalls := st.transportCalls + 1 }
      let decompressed := decompressArtifact brotli body name
      let st2 := stStore st1 dir storePath decompressed
      (.ok decompressed, st2)

/-- fetchFromIPFS of the verified-fetch class: derive the store path (which
can throw the path traversal error), serve a store hit without touching the
transport, otherwise initialize the transport and run the fetch closure
under withRetry with the ipfsRetryHandler classifier, wrapping any final
failure with the artifact kind, variant and attempt count.  The downloads
directory recomputed inside the closure for the store write is hoisted here;
it is the same computation that already succeeded for the store path, so the
error branch is unreachable. -/
def fetchFromIPFSVF (brotli : List Nat → List Nat) (net : Nat → NetResponse)
    (maxRetries : Nat) (baseDelayMs : ℚ) (addJitter : Bool) (rand : Nat → ℚ)
    (_rootCid : String) (variant : String) (name : ArtifactName) (st : DLState) :
    Except DLError (List Nat) × DLState :=
  match artifactDownloadsPathVF name variant with
  | .error e => (.error e, st)
  | .ok storePath =>
    let ex := stExists st storePath
    if ex.1 then
      let g := stGet ex.2 storePath
      match g.1 with
      | some d => (.ok d, g.2)
      | none => (.error (.cachedReadFailed storePath), g.2)
    else
      let st1 := initVerifiedFetch ex.2
      match artifactDownloadsDirVF variant with
      | .error e => (.error e, st1)
      | .ok dir =>
        let tr := withRetry (fetchAttemptVF brotli net name dir storePath)
          ipfsShouldRetry baseDelayMs addJitter rand maxRetries st1
        match tr.result with
        | .ok d => (.ok d, tr.state)
        | .error e => (.error (.fetchFailedAfter name variant (maxRetries + 1) e), tr.state)

/-- Paths record returned by downloadArtifactsForVariant. -/
structure StoredPaths where
  vkeyStoredPath : String
  zkeyStoredPath : String
  wasmOrDatStoredPath : String
deriving DecidableEq

/-- The third artifact kind fetched by a downloader instance: dat when
native artifacts are configured, wasm otherwise. -/
def thirdArtifactName (useNativeArtifacts : Bool) : ArtifactName :=
  if useNativeArtifacts then .DAT else .WASM

/-- The root CID selected by the verified-fetch downloader for a variant. -/
def cidRootVF (v : String) : String :=
  if isPPOIartifactVariantVF v then PPOI_ARTIFACTS_CID else RAILGUN_ARTIFACTS_CID_ROOT

/-- downloadArtifactsForVariant of the verified-fetch class: fetch the three
artifact kinds (the Promise.all fan-out is modeled left to right), then
derive and return the three stored paths.  No variant validation is
performed by this implementation. -/
def downloadArtifactsForVariantVF (brotli : List Nat → List Nat)
    (net : Nat → NetResponse) (maxRetries : Nat) (baseDelayMs : ℚ)
    (addJitter : Bool) (rand : Nat → ℚ) (useNativeArtifacts : Bool)
    (variant : String) (st : DLState) : Except DLError StoredPaths × DLState :=
  let f1 := fetchFromIPFSVF brotli net maxRetries baseDelayMs addJitter rand
    (cidRootVF variant) variant .VKEY st
  let f2 := fetchFromIPFSVF brotli net maxRetries baseDelayMs addJitter rand
    (cidRootVF variant) variant .ZKEY f1.2
  let f3 := fetchFromIPFSVF brotli net maxRetries baseDelayMs addJitter rand
    (cidRootVF variant) variant (thirdArtifactName useNativeArtifacts) f2.2
  match f1.1 with
  | .error e => (.error e, f3.2)
  | .ok _ =>
    match f2.1 with
    | .error e => (.error e, f3.2)
    | .ok _ =>
      match f3.1 with
      | .error e => (.error e, f3.2)
      | .ok _ =>
        match artifactDownloadsPathVF .VKEY variant,
            artifactDownloadsPathVF .ZKEY variant,
            artifactDownloadsPathVF (thirdArtifactName useNativeArtifacts) variant with
        | .ok pv, .ok pz, .ok pw => (.ok ⟨pv, pz, pw⟩, f3.2)
        | _, _, _ => (.error (.pathTraversal variant), f3.2)

/-! Helia-http downloader (the ArtifactDownloader class built on
createHeliaHTTP and unixfs).  Names of its members carry the HH marker. -/

/-- isPPOIartifactVariant of the helia-http class: a literal marker test on
the start of the variant string. -/
def isPPOIartifactVariantHH (v : String) : Bool :=
  listStarts PPOI_VARIANT_STR.data v.data

/-- artifactDownloadsDir of the helia-http class.  This implementation has
no basename guard. -/
def artifactDownloadsDirHH (v : String) : String :=
  if isPPOIartifactVariantHH v then "artifacts-v2.1/ppoi-nov-2-23/" ++ v
  else "artifacts-v2.1/" ++ v

/-- artifactDownloadsPath of the helia-http class. -/
def artifactDownloadsPathHH (name : ArtifactName) (v : String) : String :=
  artifactDownloadsDirHH v ++ "/" ++ storeFileName name

/-- getIPFSpathForArtifactName of the helia-http class: a POI-marked variant
must be one of the two enumerated PPOI variants, otherwise the path is a
pure template lookup. -/
def getIPFSpathHH (name : ArtifactName) (v : String) : Except DLError String :=
  if isPPOIartifactVariantHH v then
    if VALID_PPOI_ARTIFACT_VARIANT.contains v then
      .ok (match name with
        | .WASM => v ++ "/wasm.br"
        | .ZKEY => v ++ "/zkey.br"
        | .VKEY => v ++ "/vkey.json"
        | .DAT => v ++ "/dat.br")
    else .error (.invalidPOIIpfsPath v)
  else
    .ok (match name with
      | .WASM => "prover/snarkjs/" ++ v ++ "." ++ name.str ++ ".br"
      | .DAT => "prover/native/" ++ v ++ "." ++ name.str ++ ".br"
      | .ZKEY => "circuits/" ++ v ++ "/" ++ name.str ++ ".br"
      | .VKEY => "circuits/" ++ v ++ "/" ++ name.str ++ ".json")

/-- validateArtifactVariant of the helia-http and plain-fetch classes: a
POI-marked string must be in the PPOI list, any other string must be in the
standard list. -/
def validateArtifactVariant (v : String) : Except DLError Unit :=
  if isPPOIartifactVariantHH v then
    if VALID_PPOI_ARTIFACT_VARIANT.contains v then .ok ()
    else .error (.invalidPPOIVariant v)
  else
    if VALID_RAILGUN_ARTIFACT_VARIANTS.contains v then .ok ()
    else .error (.invalidRailgunVariant v)

/-- initHelia: lazily creates the Helia node, modeled as always
succeeding. -/
def initHelia (st : DLState) : DLState :=
  { st with inited := true }

/-- fetchFromIPFS of the helia-http class: derive the store path with no
validation, return the store path immediately on a store hit, otherwise
initialize the node, derive the network path (which rejects an invalid
POI-marked variant, outside the try block), perform one transport call
(fs.cat with the chunks concatenated), decompress, persist, and return the
store path; errors of the try block are wrapped with the kind and the
variant. -/
def fetchFromIPFSHH (brotli : List Nat → List Nat) (net : Nat → NetResponse)
    (_rootCid : String) (variant : String) (name : ArtifactName) (st : DLState) :
    Except DLError String × DLState :=
  let storePath := artifactDownloadsPathHH name variant
  let ex := stExists st storePath
  if ex.1 then (.ok storePath, ex.2)
  else
    let st1 := initHelia ex.2
    match getIPFSpathHH name variant with
    | .error e => (.error e, st1)
    | .ok _ =>
      match net st1.transportCalls with
      | .netFail msg =>
        (.error (.ipfsFetchFailed name variant (.network msg)),
          { st1 with transportCalls := st1.transportCalls + 1 })
      | .httpError code text =>
        (.error (.ipfsFetchFailed name variant (.httpFailed code text)),
          { st1 with transportCalls := st1.transportCalls + 1 })
      | .ok body =>
        let st2 := { st1 with transportCalls := st1.transportCalls + 1 }
        let decompressed := decompressArtifact brotli body name
        let st3 := stStore st2 (artifactDownloadsDirHH variant) storePath decompressed
        (.ok storePath, st3)

/-- downloadArtifactsForVariant of the helia-http class: validate the
variant first, then fetch the three kinds and return their stored paths. -/
def downloadArtifactsForVariantHH (brotli : List Nat → List Nat)
    (net : Nat → NetResponse) (useNativeArtifacts : Bool) (variant : String)
    (st : DLState) : Except DLError StoredPaths × DLState :=
  match validateArtifactVariant variant with
  | .error e => (.error e, st)
  | .ok _ =>
    let cidRoot := if isPPOIartifactVariantHH variant then PPOI_ARTIFACTS_CID
      else RAILGUN_ARTIFACTS_CID_ROOT
    let f1 := fetchFromIPFSHH brotli net cidRoot variant .VKEY st
    let f2 := fetchFromIPFSHH brotli net cidRoot variant .ZKEY f1.2
    let f3 := fetchFromIPFSHH brotli net cidRoot variant
      (thirdArtifactName useNativeArtifacts) f2.2
    match f1.1 with
    | .error e => (.error e, f3.2)
    | .ok pv =>
      match f2.1 with
      | .error e => (.error e, f3.2)
      | .ok pz =>
        match f3.1 with
        | .error e => (.error e, f3.2)
        | .ok pw => (.ok ⟨pv, pz, pw⟩, f3.2)

/-! Gateway-fallback fetch functions of artifact-downloader.ts, with
SHA-256 hash validation against the reference table.  The hash function and
the table are abstract parameters. -/

/-- getExpectedArtifactHash: look up the hash table for the variant, reject
vkey (which has no hashes), then look up the kind. -/
def getExpectedArtifactHash (hashes : String → Option (ArtifactName → Option String))
    (name : ArtifactName) (variant : String) : Except DLError String :=
  match hashes variant with
  | none => .error (.noHashesForVariant name variant)
  | some tbl =>
    if name = ArtifactName.VKEY then .error .noVkeyHash
    else
      match tbl name with
      | none => .error (.noHashForArtifact name variant)
      | some h => .ok h

/-- validateArtifactDownload: vkey passes with no check; for the other kinds
the digest of the data is compared with the expected table entry, a mismatch
throws, and true is returned otherwise. -/
def validateArtifactDownload (hashFn : List Nat → String)
    (hashes : String → Option (ArtifactName → Option String)) (data : List Nat)
    (name : ArtifactName) (variant : String) : Except DLError Bool :=
  if name = ArtifactName.VKEY then .ok true
  else
    match getExpectedArtifactHash hashes name variant with
    | .error e => .error e
    | .ok expected =>
      let h := hashFn data
      if h = expected then .ok true
      else .error (.integrityMismatch name variant h expected)

/-- The body of the try block of fetchFromIPFS in artifact-downloader.ts
(the gateway-fallback module), after the chunks of the response have been
concatenated into result: decompress if needed, validate the decompressed
bytes, and on success return result — the raw network bytes.  The catch
wraps any error with the kind and the variant. -/
def fetchCoreFB (hashFn : List Nat → String)
    (hashes : String → Option (ArtifactName → Option String))
    (brotli : List Nat → List Nat) (result : List Nat) (name : ArtifactName)
    (variant : String) : Except DLError (List Nat) :=
  let decompressedResult := decompressArtifact brotli result name
  match validateArtifactDownload hashFn hashes decompressedResult name variant with
  | .error e => .error (.ipfsFetchFailed name variant e)
  | .ok true => .ok result
  | .ok false => .error (.ipfsFetchFailed name variant (.invalidHashResult name variant))

/-! The in-memory ArtifactCache class. -/

/-- In-memory artifact cache: a JS Map from composite keys to bytes. -/
structure ArtifactCache where
  cache : List (String × List Nat)
deriving DecidableEq

/-- getCacheKey: rootCid, variant and kind joined with dashes. -/
def getCacheKey (rootCid variant : String) (name : ArtifactName) : String :=
  rootCid ++ "-" ++ variant ++ "-" ++ name.str

/-- ArtifactCache.get: Map get on the composite key. -/
def ArtifactCache.get (c : ArtifactCache) (rootCid variant : String)
    (name : ArtifactName) : Option (List Nat) :=
  storeLookup c.cache (getCacheKey rootCid variant name)

/-- ArtifactCache.set: Map set on the composite key. -/
def ArtifactCache.set (c : ArtifactCache) (rootCid variant : String)
    (name : ArtifactName) (data : List Nat) : ArtifactCache :=
  ⟨storeInsert c.cache (getCacheKey rootCid variant name) data⟩

/-- ArtifactCache.clear: Map clear. -/
def ArtifactCache.clear (_ : ArtifactCache) : ArtifactCache :=
  ⟨[]⟩

/-- ArtifactCache.size: Map size, the number of distinct keys. -/
def ArtifactCache.size (c : ArtifactCache) : Nat :=
  ((c.cache.map Prod.fst).dedup).length

instance exceptDecEq {ε α : Type} [DecidableEq ε] [DecidableEq α] :
    DecidableEq (Except ε α) := fun x y =>
  match x, y with
  | .ok v, .ok w =>
    if h : v = w then isTrue (by rw [h]) else isFalse (fun hc => by cases hc; exact h rfl)
  | .error v, .error w =>
    if h : v = w then isTrue (by rw [h]) else isFalse (fun hc => by cases hc; exact h rfl)
  | .ok _, .error _ => isFalse (fun hc => Except.noConfusion hc)
  | .error _, .ok _ => isFalse (fun hc => Except.noConfusion hc)

theorem storeLookup_insert_self (s : List (String × List Nat)) (p : String) (d : List Nat) :
    storeLookup (storeInsert s p d) p = some d := by
  induction s with
  | nil => simp [storeInsert, storeLookup]
  | cons hd tl ih =>
    obtain ⟨q, e⟩ := hd
    by_cases h : q = p
    · subst h
      simp [storeInsert, storeLookup]
    · simp [storeInsert, storeLookup, h, ih]

theorem storeLookup_insert_ne (s : List (String × List Nat)) (p q : String)
    (d : List Nat) (h : q ≠ p) :
    storeLookup (storeInsert s p d) q = storeLookup s q := by
  induction s with
  | nil => simp [storeInsert, storeLookup, Ne.symm h]
  | cons hd tl ih =>
    obtain ⟨w, e⟩ := hd
    by_cases hw : w = p
    · subst hw
      have hwq : w ≠ q := fun hc => h hc.symm
      simp [storeInsert, storeLookup, hwq]
    · simp only [storeInsert, if_neg hw, storeLookup]
      by_cases hwq : w = q
      · simp [hwq]
      · simp [hwq, ih]

theorem strAppendCancelLeft (a b c : String) (h : a ++ b = a ++ c) : b = c := by
  obtain ⟨as⟩ := a
  obtain ⟨bs⟩ := b
  obtain ⟨cs⟩ := c
  have h2 : as ++ bs = as ++ cs := by
    have h3 := congrArg String.data h
    simpa using h3
  have h4 := List.append_cancel_left h2
  rw [h4]

theorem dirVF_err (v : String) (e : DLError)
    (h : artifactDownloadsDirVF v = .error e) : e = .pathTraversal v := by
  rw [artifactDownloadsDirVF] at h
  split_ifs at h
  · cases h
    rfl

theorem pathVF_err (name : ArtifactName) (v : String) (e : DLError)
    (h : artifactDownloadsPathVF name v = .error e) : e = .pathTraversal v := by
  rcases hd : artifactDownloadsDirVF v with e1 | dir
  · rw [artifactDownloadsPathVF, hd] at h
    cases h
    exact dirVF_err v _ hd
  · rw [artifactDownloadsPathVF, hd] at h
    cases h

theorem pathVF_ok_dir (name : ArtifactName) (v p : String)
    (h : artifactDownloadsPathVF name v = .ok p) :
    ∃ dir, artifactDownloadsDirVF v = .ok dir ∧ p = dir ++ "/" ++ storeFileName name := by
  rcases hd : artifactDownloadsDirVF v with e1 | dir
  · rw [artifactDownloadsPathVF, hd] at h
    cases h
  · rw [artifactDownloadsPathVF, hd] at h
    cases h
    exact ⟨dir, rfl, rfl⟩

theorem storeFileName_inj (n1 n2 : ArtifactName)
    (h : storeFileName n1 = storeFileName n2) : n1 = n2 := by
  cases n1 <;> cases n2 <;> first | rfl | (exact absurd h (by decide))

theorem pathVF_ne (v : String) (n1 n2 : ArtifactName) (hn : n1 ≠ n2) (p1 p2 : String)
    (h1 : artifactDownloadsPathVF n1 v = .ok p1)
    (h2 : artifactDownloadsPathVF n2 v = .ok p2) : p1 ≠ p2 := by
  obtain ⟨dir1, hd1, hp1⟩ := pathVF_ok_dir n1 v p1 h1
  obtain ⟨dir2, hd2, hp2⟩ := pathVF_ok_dir n2 v p2 h2
  rw [hd1] at hd2
  cases hd2
  intro hc
  rw [hp1, hp2] at hc
  exact hn (storeFileName_inj n1 n2 (strAppendCancelLeft (dir1 ++ "/") _ _ hc))

theorem withRetryGo_calls_le {ε α σ : Type} (fn : σ → Except ε α × σ) (sr : ε → Bool)
    (b : ℚ) (j : Bool) (r : Nat → ℚ) :
    ∀ (fuel attempt : Nat) (s : σ),
      (withRetryGo fn sr b j r attempt fuel s).calls ≤ fuel + 1 := by
  intro fuel
  induction fuel with
  | zero =>
    intro attempt s
    rw [withRetryGo.eq_def]
    rcases hfn : fn s with ⟨res, s1⟩
    cases res with
    | ok a =>
      simp only [hfn]
      omega
    | error e =>
      simp only [hfn]
      omega
  | succ fuel ih =>
    intro attempt s
    rw [withRetryGo.eq_def]
    rcases hfn : fn s with ⟨res, s1⟩
    cases res with
    | ok a =>
      simp only [hfn]
      omega
    | error e =>
      have hrest := ih (attempt + 1) s1
      simp only [hfn]
      omega

theorem withRetryIxGo_ok {ε α : Type} (g : Nat → Except ε α) (sr : ε → Bool)
    (b : ℚ) (j : Bool) (r : Nat → ℚ) :
    ∀ (k fuel attempt start : Nat) (a : α), k ≤ fuel →
      (∀ i, start ≤ i → i < start + k → ∃ e, g i = .error e) →
      g (start + k) = .ok a →
      (withRetryGo (fun n => (g n, n + 1)) sr b j r attempt fuel start).result = .ok a ∧
      (withRetryGo (fun n => (g n, n + 1)) sr b j r attempt fuel start).calls = k + 1 := by
  intro k
  induction k with
  | zero =>
    intro fuel attempt start a _ _ hok
    have hg : g start = .ok a := by simpa using hok
    rw [withRetryGo.eq_def]
    simp [hg]
  | succ k ih =>
    intro fuel attempt start a hk herr hok
    obtain ⟨e, he⟩ := herr start (le_refl _) (by omega)
    cases fuel with
    | zero => omega
    | succ fuel1 =>
      rw [withRetryGo.eq_def]
      simp only [he]
      have hok1 : g (start + 1 + k) = .ok a := by
        have h3 : start + 1 + k = start + (k + 1) := by omega
        rw [h3]
        exact hok
      have herr1 : ∀ i, start + 1 ≤ i → i < start + 1 + k → ∃ e1, g i = .error e1 := by
        intro i h1 h2
        exact herr i (by omega) (by omega)
      have hih := ih fuel1 (attempt + 1) (start + 1) a (by omega) herr1 hok1
      refine ⟨hih.1, ?_⟩
      rw [hih.2]

theorem withRetryIxGo_err {ε α : Type} (g : Nat → Except ε α) (sr : ε → Bool)
    (b : ℚ) (j : Bool) (r : Nat → ℚ) :
    ∀ (fuel attempt start : Nat) (e : ε),
      (∀ i, start ≤ i → i ≤ start + fuel → ∃ e1, g i = .error e1) →
      g (start + fuel) = .error e →
      (withRetryGo (fun n => (g n, n + 1)) sr b j r attempt fuel start).result = .error e ∧
      (withRetryGo (fun n => (g n, n + 1)) sr b j r attempt fuel start).calls = fuel + 1 := by
  intro fuel
  induction fuel with
  | zero =>
    intro attempt start e _ hlast
    have hg : g start = .error e := by simpa using hlast
    rw [withRetryGo.eq_def]
    simp [hg]
  | succ fuel1 ih =>
    intro attempt start e hall hlast
    obtain ⟨e0, he0⟩ := hall start (le_refl _) (by omega)
    rw [withRetryGo.eq_def]
    simp only [he0]
    have h1 : ∀ i, start + 1 ≤ i → i ≤ start + 1 + fuel1 → ∃ e1, g i = .error e1 := by
      intro i hi hi2
      exact hall i (by omega) (by omega)
    have h2 : g (start + 1 + fuel1) = .error e := by
      have h3 : start + 1 + fuel1 = start + (fuel1 + 1) := by omega
      rw [h3]
      exact hlast
    have hih := ih (attempt + 1) (start + 1) e h1 h2
    refine ⟨hih.1, ?_⟩
    rw [hih.2]

theorem fetchAttemptVF_cases (brotli : List Nat → List Nat) (net : Nat → NetResponse)
    (name : ArtifactName) (dir storePath : String) (s : DLState)
    (hinit : s.inited = true) :
    (∃ e s1, fetchAttemptVF brotli net name dir storePath s = (.error e, s1) ∧
      s1.store = s.store ∧ s1.inited = true) ∨
    (∃ body, net s.transportCalls = .ok body ∧
      fetchAttemptVF brotli net name dir storePath s =
        (.ok (decompressArtifact brotli body name),
          stStore { s with transportCalls := s.transportCalls + 1 } dir storePath
            (decompressArtifact brotli body name))) := by
  rcases hnet : net s.transportCalls with body | ⟨code, text⟩ | msg
  · right
    exact ⟨body, rfl, by simp [fetchAttemptVF, hinit, hnet]⟩
  · left
    by_cases hrc : isRetryableStatusCode code
    · exact ⟨.httpRetryable code text, { s with transportCalls := s.transportCalls + 1 },
        by simp [fetchAttemptVF, hinit, hnet, hrc], rfl, hinit⟩
    · exact ⟨.httpFailed code text, { s with transportCalls := s.transportCalls + 1 },
        by simp [fetchAttemptVF, hinit, hnet, hrc], rfl, hinit⟩
  · left
    exact ⟨.network msg, { s with transportCalls := s.transportCalls + 1 },
      by simp [fetchAttemptVF, hinit, hnet], rfl, hinit⟩

theorem withRetryGoVF_ok (brotli : List Nat → List Nat) (net : Nat → NetResponse)
    (name : ArtifactName) (dir storePath : String) (sr : DLError → Bool)
    (b : ℚ) (j : Bool) (r : Nat → ℚ) :
    ∀ (fuel attempt : Nat) (s : DLState), s.inited = true →
      ∀ d, (withRetryGo (fetchAttemptVF brotli net name dir storePath) sr b j r
          attempt fuel s).result = .ok d →
        (withRetryGo (fetchAttemptVF brotli net name dir storePath) sr b j r
          attempt fuel s).state.store = storeInsert s.store storePath d ∧
        (withRetryGo (fetchAttemptVF brotli net name dir storePath) sr b j r
          attempt fuel s).state.inited = true := by
  intro fuel
  induction fuel with
  | zero =>
    intro attempt s hinit d hres
    rcases fetchAttemptVF_cases brotli net name dir storePath s hinit with
      ⟨e, s1, heq, hst, hin⟩ | ⟨body, hnet, heq⟩
    · rw [withRetryGo.eq_def] at hres
      simp only [heq] at hres
      exact Except.noConfusion hres
    · rw [withRetryGo.eq_def] at hres ⊢
      simp only [heq] at hres ⊢
      cases hres
      refine ⟨?_, ?_⟩
      · simp [stStore]
      · simp [stStore, hinit]
  | succ fuel1 ih =>
    intro attempt s hinit d hres
    rcases fetchAttemptVF_cases brotli net name dir storePath s hinit with
      ⟨e, s1, heq, hst, hin⟩ | ⟨body, hnet, heq⟩
    · rw [withRetryGo.eq_def] at hres ⊢
      simp only [heq] at hres ⊢
      have hih := ih (attempt + 1) s1 hin d hres
      rw [hst] at hih
      exact hih
    · rw [withRetryGo.eq_def] at hres ⊢
      simp only [heq] at hres ⊢
      cases hres
      refine ⟨?_, ?_⟩
      · simp [stStore]
      · simp [stStore, hinit]

theorem fetchVF_hit (brotli : List Nat → List Nat) (net : Nat → NetResponse)
    (mR : Nat) (b : ℚ) (j : Bool) (r : Nat → ℚ) (cid v : String)
    (name : ArtifactName) (st : DLState) (p : String) (d : List Nat)
    (hp : artifactDownloadsPathVF name v = .ok p)
    (hd : storeLookup st.store p = some d) :
    fetchFromIPFSVF brotli net mR b j r cid v name st =
      (.ok d, { st with storeCalls := st.storeCalls + 2 }) := by
  simp [fetchFromIPFSVF, hp, stExists, stGet, hd]

theorem fetchVF_ok_spec (brotli : List Nat → List Nat) (net : Nat → NetResponse)
    (mR : Nat) (b : ℚ) (j : Bool) (r : Nat → ℚ) (cid v : String)
    (name : ArtifactName) (st : DLState) (d : List Nat) (st1 : DLState)
    (h : fetchFromIPFSVF brotli net mR b j r cid v name st = (.ok d, st1)) :
    ∃ p, artifactDownloadsPathVF name v = .ok p ∧
      storeLookup st1.store p = some d ∧
      (∀ q, q ≠ p → storeLookup st1.store q = storeLookup st.store q) := by
  rcases hp : artifactDownloadsPathVF name v with e | p
  · simp [fetchFromIPFSVF, hp] at h
  · refine ⟨p, rfl, ?_⟩
    simp only [fetchFromIPFSVF, hp] at h
    by_cases hex : (storeLookup st.store p).isSome = true
    · obtain ⟨d0, hd0⟩ := Option.isSome_iff_exists.mp hex
      simp only [stExists, hex, if_true, stGet, hd0] at h
      obtain ⟨h1, h2⟩ := Prod.mk.injEq .. |>.mp h
      cases h1
      rw [← h2]
      exact ⟨hd0, fun q _ => rfl⟩
    · have hexf : (storeLookup st.store p).isSome = false := by
        simpa using hex
      obtain ⟨dir, hdir, _⟩ := pathVF_ok_dir name v p hp
      simp only [stExists, hexf, Bool.false_eq_true, if_false, hdir, withRetry] at h
      rcases hres : (withRetryGo
          (fetchAttemptVF brotli net name dir p) ipfsShouldRetry b j r 0 mR
          (initVerifiedFetch { st with storeCalls := st.storeCalls + 1 })).result with e1 | d1
      · simp only [hres] at h
        simp at h
      · simp only [hres] at h
        obtain ⟨h1, h2⟩ := Prod.mk.injEq .. |>.mp h
        cases h1
        have hok := withRetryGoVF_ok brotli net name dir p ipfsShouldRetry b j r mR 0
          (initVerifiedFetch { st with storeCalls := st.storeCalls + 1 }) rfl d hres
        rw [h2] at hok
        refine ⟨?_, ?_⟩
        · rw [hok.1]
          exact storeLookup_insert_self _ _ _
        · intro q hq
          rw [hok.1]
          exact storeLookup_insert_ne _ _ _ _ hq

theorem fetchVF_err_shape (brotli : List Nat → List Nat) (net : Nat → NetResponse)
    (mR : Nat) (b : ℚ) (j : Bool) (r : Nat → ℚ) (cid v : String)
    (name : ArtifactName) (st : DLState) (e : DLError) (st1 : DLState)
    (h : fetchFromIPFSVF brotli net mR b j r cid v name st = (.error e, st1)) :
    e = .pathTraversal v ∨ (∃ p, e = .cachedReadFailed p) ∨
      (∃ c, e = .fetchFailedAfter name v (mR + 1) c) := by
  rcases hp : artifactDownloadsPathVF name v with e0 | p
  · simp only [fetchFromIPFSVF, hp] at h
    obtain ⟨h1, _⟩ := Prod.mk.injEq .. |>.mp h
    cases h1
    exact Or.inl (pathVF_err name v _ hp)
  · simp only [fetchFromIPFSVF, hp] at h
    by_cases hex : (storeLookup st.store p).isSome = true
    · obtain ⟨d0, hd0⟩ := Option.isSome_iff_exists.mp hex
      simp only [stExists, hex, if_true, stGet, hd0] at h
      simp at h
    · have hexf : (storeLookup st.store p).isSome = false := by
        simpa using hex
      obtain ⟨dir, hdir, _⟩ := pathVF_ok_dir name v p hp
      simp only [stExists, hexf, Bool.false_eq_true, if_false, hdir, withRetry] at h
      rcases hres : (withRetryGo
          (fetchAttemptVF brotli net name dir p) ipfsShouldRetry b j r 0 mR
          (initVerifiedFetch { st with storeCalls := st.storeCalls + 1 })).result with e1 | d1
      · simp only [hres] at h
        obtain ⟨h1, _⟩ := Prod.mk.injEq .. |>.mp h
        cases h1
        exact Or.inr (Or.inr ⟨e1, rfl⟩)
      · simp only [hres] at h
        simp at h

/-- C1: when the artifact store reports that the derived storage key exists,
fetchFromIPFS returns the stored bytes (verified-fetch class) or the storage
path (helia-http class) with the transport left uninitialized, zero
transport calls, and the store unchanged (only the store-operation counter
moves); consequently a repeated fetch returns the same bytes, and a second
downloadArtifactsForVariant call after a successful first call performs zero
transport calls, leaves the store byte-identical, and returns the same
result. -/
theorem store_hit_fast_path_and_second_download_idempotent
    (brotli : List Nat → List Nat) (net : Nat → NetResponse) (mR : Nat)
    (b : ℚ) (j : Bool) (r : Nat → ℚ) (cid v : String) (name : ArtifactName)
    (useNat : Bool) (st : DLState) :
    (∀ p d, artifactDownloadsPathVF name v = .ok p →
        storeLookup st.store p = some d →
        fetchFromIPFSVF brotli net mR b j r cid v name st =
          (.ok d, { st with storeCalls := st.storeCalls + 2 }))
    ∧ ((storeLookup st.store (artifactDownloadsPathHH name v)).isSome = true →
        fetchFromIPFSHH brotli net cid v name st =
          (.ok (artifactDownloadsPathHH name v),
            { st with storeCalls := st.storeCalls + 1 }))
    ∧ (∀ d st1, fetchFromIPFSVF brotli net mR b j r cid v name st = (.ok d, st1) →
        fetchFromIPFSVF brotli net mR b j r cid v name st1 =
          (.ok d, { st1 with storeCalls := st1.storeCalls + 2 }))
    ∧ (∀ res st1,
        downloadArtifactsForVariantVF brotli net mR b j r useNat v st = (.ok res, st1) →
        downloadArtifactsForVariantVF brotli net mR b j r useNat v st1 =
          (.ok res, { st1 with storeCalls := st1.storeCalls + 6 })) := by
  refine ⟨?_, ?_, ?_, ?_⟩
  · intro p d hp hd
    exact fetchVF_hit brotli net mR b j r cid v name st p d hp hd
  · intro hsome
    obtain ⟨d0, hd0⟩ := Option.isSome_iff_exists.mp hsome
    simp [fetchFromIPFSHH, stExists, hd0]
  · intro d st1 h
    obtain ⟨p, hp, hl, _⟩ := fetchVF_ok_spec brotli net mR b j r cid v name st d st1 h
    exact fetchVF_hit brotli net mR b j r cid v name st1 p d hp hl
  · intro res st1 h
    simp only [downloadArtifactsForVariantVF] at h
    rcases hf1 : fetchFromIPFSVF brotli net mR b j r (cidRootVF v) v .VKEY st with ⟨r1, s1⟩
    simp only [hf1] at h
    cases r1 with
    | error e => simp at h
    | ok d1 =>
      rcases hf2 : fetchFromIPFSVF brotli net mR b j r (cidRootVF v) v .ZKEY s1 with ⟨r2, s2⟩
      simp only [hf2] at h
      cases r2 with
      | error e => simp at h
      | ok d2 =>
        rcases hf3 : fetchFromIPFSVF brotli net mR b j r (cidRootVF v) v
            (thirdArtifactName useNat) s2 with ⟨r3, s3⟩
        simp only [hf3] at h
        cases r3 with
        | error e => simp at h
        | ok d3 =>
          obtain ⟨pv, hpv, hlv1, _⟩ :=
            fetchVF_ok_spec brotli net mR b j r (cidRootVF v) v .VKEY st d1 s1 hf1
          obtain ⟨pz, hpz, hlz2, hprev2⟩ :=
            fetchVF_ok_spec brotli net mR b j r (cidRootVF v) v .ZKEY s1 d2 s2 hf2
          obtain ⟨pw, hpw, hlw3, hprev3⟩ :=
            fetchVF_ok_spec brotli net mR b j r (cidRootVF v) v
              (thirdArtifactName useNat) s2 d3 s3 hf3
          simp only [hpv, hpz, hpw] at h
          obtain ⟨hres, hst⟩ := Prod.mk.injEq .. |>.mp h
          cases hres
          cases hst
          have hne_vz : pv ≠ pz :=
            pathVF_ne v .VKEY .ZKEY (by decide) pv pz hpv hpz
          have hne_vw : pv ≠ pw :=
            pathVF_ne v .VKEY (thirdArtifactName useNat)
              (by cases useNat <;> decide) pv pw hpv hpw
          have hne_zw : pz ≠ pw :=
            pathVF_ne v .ZKEY (thirdArtifactName useNat)
              (by cases useNat <;> decide) pz pw hpz hpw
          have hlv3 : storeLookup st1.store pv = some d1 := by
            rw [hprev3 pv hne_vw, hprev2 pv hne_vz]
            exact hlv1
          have hlz3 : storeLookup st1.store pz = some d2 := by
            rw [hprev3 pz hne_zw]
            exact hlz2
          have h1e := fetchVF_hit brotli net mR b j r (cidRootVF v) v .VKEY st1 pv d1 hpv hlv3
          have h2e := fetchVF_hit brotli net mR b j r (cidRootVF v) v .ZKEY
            { st1 with storeCalls := st1.storeCalls + 2 } pz d2 hpz hlz3
          have h3e := fetchVF_hit brotli net mR b j r (cidRootVF v) v
            (thirdArtifactName useNat)
            { st1 with storeCalls := st1.storeCalls + 2 + 2 } pw d3 hpw hlw3
          simp only [downloadArtifactsForVariantVF, h1e, h2e, h3e, hpv, hpz, hpw]

theorem second_download_idempotent_witness :
    downloadArtifactsForVariantVF (fun l => l) (fun _ => NetResponse.ok [3]) 0 1 false
      (fun _ => 0) false "01x01"
      ⟨[("artifacts-v2.1/01x01/vkey.json", [3]), ("artifacts-v2.1/01x01/zkey", [3]),
        ("artifacts-v2.1/01x01/wasm", [3])], true, 3, 6⟩ =
    (.ok ⟨"artifacts-v2.1/01x01/vkey.json", "artifacts-v2.1/01x01/zkey",
        "artifacts-v2.1/01x01/wasm"⟩,
      ⟨[("artifacts-v2.1/01x01/vkey.json", [3]), ("artifacts-v2.1/01x01/zkey", [3]),
        ("artifacts-v2.1/01x01/wasm", [3])], true, 3, 12⟩) :=
  (store_hit_fast_path_and_second_download_idempotent (fun l => l)
    (fun _ => NetResponse.ok [3]) 0 1 false (fun _ => 0) "cid" "01x01" .VKEY false
    ⟨[], false, 0, 0⟩).2.2.2
    ⟨"artifacts-v2.1/01x01/vkey.json", "artifacts-v2.1/01x01/zkey",
      "artifacts-v2.1/01x01/wasm"⟩
    ⟨[("artifacts-v2.1/01x01/vkey.json", [3]), ("artifacts-v2.1/01x01/zkey", [3]),
      ("artifacts-v2.1/01x01/wasm", [3])], true, 3, 6⟩
    (by decide)

/-- C2 (code bug evidence): the retry classifier judges the non-retryable
fetch error built by the downloader itself, with message Failed to fetch:
400 Bad Request, as retryable, because that message lacks the status:
marker; and even for an error the classifier judges terminal, withRetry
re-executes the operation the full maxRetries times — only the backoff
delay is skipped — so a maxRetries = 2 run executes an always-failing
operation 3 times instead of propagating after the first attempt. -/
theorem retry_classifier_and_terminal_error_retry_bug :
    ipfsRetryHandler (DLError.httpFailed 400 "Bad Request").message = true
    ∧ ipfsRetryHandler (DLError.httpRetryable 503 "Service Unavailable").message = true
    ∧ ipfsRetryHandler "Retryable fetch error status:400 Bad Request" = false
    ∧ (withRetryIx
        (fun _ => (.error (DLError.httpFailed 400 "Bad Request") : Except DLError (List Nat)))
        ipfsShouldRetry 2).calls = 3
    ∧ (withRetryIx (fun _ => (.error 7 : Except Nat Nat)) (fun _ => false) 2).calls = 3
    ∧ (withRetryIx (fun _ => (.error 7 : Except Nat Nat)) (fun _ => false) 2).delays = [] := by
  refine ⟨by decide, by decide, by decide, by decide, by decide, by decide⟩

/-- C3: withRetry executes the operation at most maxRetries + 1 times; if
the k-th execution succeeds after k failures its value is returned with
exactly k + 1 executions; if every execution fails, the error of the last
execution is thrown after exactly maxRetries + 1 executions. -/
theorem withRetry_attempt_bound_and_last_error {ε α : Type} (g : Nat → Except ε α)
    (sr : ε → Bool) (N : Nat) :
    (withRetryIx g sr N).calls ≤ N + 1
    ∧ (∀ k a, k ≤ N → (∀ i, i < k → ∃ e, g i = .error e) → g k = .ok a →
        (withRetryIx g sr N).result = .ok a ∧ (withRetryIx g sr N).calls = k + 1)
    ∧ (∀ e, (∀ i, i ≤ N → ∃ e1, g i = .error e1) → g N = .error e →
        (withRetryIx g sr N).result = .error e ∧ (withRetryIx g sr N).calls = N + 1) := by
  refine ⟨?_, ?_, ?_⟩
  · exact withRetryGo_calls_le _ sr 1 false (fun _ => 0) N 0 0
  · intro k a hk herr hok
    exact withRetryIxGo_ok g sr 1 false (fun _ => 0) k N 0 0 a hk
      (fun i _ h2 => herr i (by omega)) (by simpa using hok)
  · intro e hall hlast
    exact withRetryIxGo_err g sr 1 false (fun _ => 0) N 0 0 e
      (fun i _ h2 => hall i (by omega)) (by simpa using hlast)

theorem withRetry_attempt_bound_witness :
    (withRetryIx (fun k => if k = 1 then (Except.ok 42 : Except Nat Nat) else .error 7)
      (fun _ => true) 3).result = .ok 42
    ∧ (withRetryIx (fun k => if k = 1 then (Except.ok 42 : Except Nat Nat) else .error 7)
      (fun _ => true) 3).calls = 1 + 1 :=
  (withRetry_attempt_bound_and_last_error
    (fun k => if k = 1 then (Except.ok 42 : Except Nat Nat) else .error 7)
    (fun _ => true) 3).2.1 1 42 (by omega)
    (by
      intro i hi
      have h0 : i = 0 := by omega
      subst h0
      exact ⟨7, rfl⟩)
    (by decide)

/-- C4 (code bug evidence): the gateway-fallback fetchFromIPFS of
artifact-downloader.ts decompresses the network bytes and validates the
decompressed bytes, but then returns result — the raw compressed network
bytes — to the caller.  Here the network delivers the compressed form
0 :: x with decompression List.drop 1 and a digest table that accepts the
decompressed bytes [1, 2, 3]; the fetch succeeds yet hands back
[0, 1, 2, 3], not the decompressed artifact. -/
theorem fallback_fetch_returns_compressed_bytes :
    fetchCoreFB (fun l => Nat.repr (l.foldl (· + ·) 0))
      (fun v => if v = "01x01" then
        some (fun n => if n = ArtifactName.ZKEY then some "6" else none) else none)
      (List.drop 1) [0, 1, 2, 3] .ZKEY "01x01" = .ok [0, 1, 2, 3]
    ∧ decompressArtifact (List.drop 1) [0, 1, 2, 3] .ZKEY = [1, 2, 3]
    ∧ ([0, 1, 2, 3] : List Nat) ≠ [1, 2, 3] := by
  refine ⟨by decide, by decide, by decide⟩

/-- C5 counterexample: fetchFromIPFS of the helia-http class performs no
variant validation.  The string bogus matches neither catalog — the
validator rejects it — yet fetchFromIPFS with that variant consults the
store and returns the derived storage path of the invalid variant instead
of failing with an invalid-variant error before any store access. -/
theorem fetchFromIPFS_skips_variant_validation :
    validateArtifactVariant "bogus" = .error (.invalidRailgunVariant "bogus")
    ∧ fetchFromIPFSHH (fun l => l) (fun _ => NetResponse.netFail "offline") "cid" "bogus"
        .VKEY ⟨[("artifacts-v2.1/bogus/vkey.json", [9])], false, 0, 0⟩ =
      (.ok "artifacts-v2.1/bogus/vkey.json",
        ⟨[("artifacts-v2.1/bogus/vkey.json", [9])], false, 0, 1⟩) := by
  refine ⟨by decide, by decide⟩

/-- C5 amended: downloadArtifactsForVariant of the helia-http class
validates the variant before anything else: for every string outside both
catalogs it fails with an invalid-variant error and the state is returned
untouched — no store access, no transport initialization, no network
call.  The per-kind fetchFromIPFS entry point performs no such validation
(see the counterexample). -/
theorem download_validates_before_any_access (brotli : List Nat → List Nat)
    (net : Nat → NetResponse) (useNat : Bool) (v : String) (st : DLState)
    (h1 : VALID_PPOI_ARTIFACT_VARIANT.contains v = false)
    (h2 : VALID_RAILGUN_ARTIFACT_VARIANTS.contains v = false) :
    ∃ e, (e = DLError.invalidPPOIVariant v ∨ e = DLError.invalidRailgunVariant v) ∧
      downloadArtifactsForVariantHH brotli net useNat v st = (.error e, st) := by
  have hm1 : v ∉ VALID_PPOI_ARTIFACT_VARIANT := by simpa using h1
  have hm2 : v ∉ VALID_RAILGUN_ARTIFACT_VARIANTS := by simpa using h2
  by_cases hp : isPPOIartifactVariantHH v = true
  · exact ⟨.invalidPPOIVariant v, Or.inl rfl,
      by simp [downloadArtifactsForVariantHH, validateArtifactVariant, hp, hm1]⟩
  · have hp2 : isPPOIartifactVariantHH v = false := by simpa using hp
    exact ⟨.invalidRailgunVariant v, Or.inr rfl,
      by simp [downloadArtifactsForVariantHH, validateArtifactVariant, hp2, hm2]⟩

theorem download_validates_witness :
    ∃ e, (e = DLError.invalidPPOIVariant "bogus" ∨ e = DLError.invalidRailgunVariant "bogus") ∧
      downloadArtifactsForVariantHH (fun l => l) (fun _ => NetResponse.netFail "offline")
        false "bogus" ⟨[], false, 0, 0⟩ = (.error e, ⟨[], false, 0, 0⟩) :=
  download_validates_before_any_access (fun l => l) (fun _ => NetResponse.netFail "offline")
    false "bogus" ⟨[], false, 0, 0⟩ (by decide) (by decide)

/-- C6 counterexample: the storage-directory derivation of the helia-http
class has no basename guard: the variant string ../evil differs from its
basename yet is accepted and produces a storage path that climbs out of the
artifacts-v2.1 root instead of being rejected with a path-traversal
error. -/
theorem helia_dir_derivation_accepts_traversal :
    basename "../evil" ≠ "../evil"
    ∧ artifactDownloadsDirHH "../evil" = "artifacts-v2.1/../evil"
    ∧ artifactDownloadsPathHH .VKEY "../evil" = "artifacts-v2.1/../evil/vkey.json" := by
  refine ⟨by decide, by decide, by decide⟩

/-- C6 amended: only the verified-fetch downloader has the traversal guard:
its directory and path derivations reject every variant string that does
not equal its own basename with a path-traversal error, and its
fetchFromIPFS then fails before any store access or network call, with the
state returned untouched.  The helia-http derivation performs no such
check (see the counterexample). -/
theorem verified_dir_rejects_traversal (v : String) (h : basename v ≠ v) :
    artifactDownloadsDirVF v = .error (.pathTraversal v)
    ∧ (∀ name, artifactDownloadsPathVF name v = .error (.pathTraversal v))
    ∧ (∀ (brotli : List Nat → List Nat) (net : Nat → NetResponse) (mR : Nat) (b : ℚ)
        (j : Bool) (r : Nat → ℚ) (cid : String) (name : ArtifactName) (st : DLState),
        fetchFromIPFSVF brotli net mR b j r cid v name st =
          (.error (.pathTraversal v), st)) := by
  have hdir : artifactDownloadsDirVF v = .error (.pathTraversal v) := by
    simp [artifactDownloadsDirVF, h]
  have hpath : ∀ name, artifactDownloadsPathVF name v = .error (.pathTraversal v) := by
    intro name
    rw [artifactDownloadsPathVF, hdir]
  refine ⟨hdir, hpath, ?_⟩
  intro brotli net mR b j r cid name st
  simp [fetchFromIPFSVF, hpath name]

theorem verified_dir_rejects_traversal_witness :
    artifactDownloadsDirVF "a/b" = .error (.pathTraversal "a/b")
    ∧ artifactDownloadsPathVF .ZKEY "a/b" = .error (.pathTraversal "a/b")
    ∧ fetchFromIPFSVF (fun l => l) (fun _ => NetResponse.ok [1]) 0 1 false (fun _ => 0)
        "cid" "a/b" .ZKEY ⟨[], false, 0, 0⟩ =
      (.error (.pathTraversal "a/b"), ⟨[], false, 0, 0⟩) :=
  ⟨(verified_dir_rejects_traversal "a/b" (by decide)).1,
   (verified_dir_rejects_traversal "a/b" (by decide)).2.1 .ZKEY,
   (verified_dir_rejects_traversal "a/b" (by decide)).2.2 (fun l => l)
     (fun _ => NetResponse.ok [1]) 0 1 false (fun _ => 0) "cid" .ZKEY ⟨[], false, 0, 0⟩⟩

/-- C7: downloadArtifactsForVariant of the verified-fetch class is
all-or-nothing: it returns a result exactly when all three kind-fetches
succeed, and any kind's terminal failure makes the whole call fail with a
single error; an error surfaced from the fetch pipeline is wrapped with the
failing artifact kind, the variant, and the attempt count (the remaining
possibilities are the pre-pipeline path-traversal rejection and the
store-read failure), and no partial-success record exists. -/
theorem download_all_or_nothing_wrapped_error (brotli : List Nat → List Nat)
    (net : Nat → NetResponse) (mR : Nat) (b : ℚ) (j : Bool) (r : Nat → ℚ)
    (useNat : Bool) (v : String) (st : DLState) :
    ((∃ res st1,
        downloadArtifactsForVariantVF brotli net mR b j r useNat v st = (.ok res, st1))
      ↔ ((∃ d, (fetchFromIPFSVF brotli net mR b j r (cidRootVF v) v .VKEY st).1 = .ok d)
        ∧ (∃ d, (fetchFromIPFSVF brotli net mR b j r (cidRootVF v) v .ZKEY
            (fetchFromIPFSVF brotli net mR b j r (cidRootVF v) v .VKEY st).2).1 = .ok d)
        ∧ (∃ d, (fetchFromIPFSVF brotli net mR b j r (cidRootVF v) v
            (thirdArtifactName useNat)
            (fetchFromIPFSVF brotli net mR b j r (cidRootVF v) v .ZKEY
              (fetchFromIPFSVF brotli net mR b j r (cidRootVF v) v .VKEY st).2).2).1 = .ok d)))
    ∧ (∀ e st1,
        downloadArtifactsForVariantVF brotli net mR b j r useNat v st = (.error e, st1) →
        e = .pathTraversal v ∨ (∃ p, e = .cachedReadFailed p) ∨
          ∃ k c, (k = .VKEY ∨ k = .ZKEY ∨ k = thirdArtifactName useNat) ∧
            e = .fetchFailedAfter k v (mR + 1) c) := by
  rcases hf1 : fetchFromIPFSVF brotli net mR b j r (cidRootVF v) v .VKEY st with ⟨r1, s1⟩
  rcases hf2 : fetchFromIPFSVF brotli net mR b j r (cidRootVF v) v .ZKEY s1 with ⟨r2, s2⟩
  rcases hf3 : fetchFromIPFSVF brotli net mR b j r (cidRootVF v) v
    (thirdArtifactName useNat) s2 with ⟨r3, s3⟩
  cases r1 with
  | error e1 =>
    have hdl : downloadArtifactsForVariantVF brotli net mR b j r useNat v st =
        (.error e1, s3) := by
      simp [downloadArtifactsForVariantVF, hf1, hf2, hf3]
    refine ⟨⟨?_, ?_⟩, ?_⟩
    · rintro ⟨res, st1, hcontra⟩
      rw [hdl] at hcontra
      simp at hcontra
    · rintro ⟨⟨d, hd⟩, -, -⟩
      simp at hd
    · intro e st1 heq
      rw [hdl] at heq
      obtain ⟨h1, -⟩ := Prod.mk.injEq .. |>.mp heq
      cases h1
      rcases fetchVF_err_shape brotli net mR b j r (cidRootVF v) v .VKEY st e1 s1 hf1 with
        h | h | ⟨c, hc⟩
      · exact Or.inl h
      · exact Or.inr (Or.inl h)
      · exact Or.inr (Or.inr ⟨.VKEY, c, Or.inl rfl, hc⟩)
  | ok d1 =>
    cases r2 with
    | error e2 =>
      have hdl : downloadArtifactsForVariantVF brotli net mR b j r useNat v st =
          (.error e2, s3) := by
        simp [downloadArtifactsForVariantVF, hf1, hf2, hf3]
      refine ⟨⟨?_, ?_⟩, ?_⟩
      · rintro ⟨res, st1, hcontra⟩
        rw [hdl] at hcontra
        simp at hcontra
      · rintro ⟨-, ⟨d, hd⟩, -⟩
        simp at hd
      · intro e st1 heq
        rw [hdl] at heq
        obtain ⟨h1, -⟩ := Prod.mk.injEq .. |>.mp heq
        cases h1
        rcases fetchVF_err_shape brotli net mR b j r (cidRootVF v) v .ZKEY s1 e2 s2 hf2 with
          h | h | ⟨c, hc⟩
        · exact Or.inl h
        · exact Or.inr (Or.inl h)
        · exact Or.inr (Or.inr ⟨.ZKEY, c, Or.inr (Or.inl rfl), hc⟩)
    | ok d2 =>
      cases r3 with
      | error e3 =>
        have hdl : downloadArtifactsForVariantVF brotli net mR b j r useNat v st =
            (.error e3, s3) := by
          simp [downloadArtifactsForVariantVF, hf1, hf2, hf3]
        refine ⟨⟨?_, ?_⟩, ?_⟩
        · rintro ⟨res, st1, hcontra⟩
          rw [hdl] at hcontra
          simp at hcontra
        · rintro ⟨-, -, ⟨d, hd⟩⟩
          simp at hd
        · intro e st1 heq
          rw [hdl] at heq
          obtain ⟨h1, -⟩ := Prod.mk.injEq .. |>.mp heq
          cases h1
          rcases fetchVF_err_shape brotli net mR b j r (cidRootVF v) v
            (thirdArtifactName useNat) s2 e3 s3 hf3 with h | h | ⟨c, hc⟩
          · exact Or.inl h
          · exact Or.inr (Or.inl h)
          · exact Or.inr (Or.inr ⟨thirdArtifactName useNat, c, Or.inr (Or.inr rfl), hc⟩)
      | ok d3 =>
        obtain ⟨pv, hpv, -, -⟩ :=
          fetchVF_ok_spec brotli net mR b j r (cidRootVF v) v .VKEY st d1 s1 hf1
        obtain ⟨pz, hpz, -, -⟩ :=
          fetchVF_ok_spec brotli net mR b j r (cidRootVF v) v .ZKEY s1 d2 s2 hf2
        obtain ⟨pw, hpw, -, -⟩ :=
          fetchVF_ok_spec brotli net mR b j r (cidRootVF v) v
            (thirdArtifactName useNat) s2 d3 s3 hf3
        have hdl : downloadArtifactsForVariantVF brotli net mR b j r useNat v st =
            (.ok ⟨pv, pz, pw⟩, s3) := by
          simp [downloadArtifactsForVariantVF, hf1, hf2, hf3, hpv, hpz, hpw]
        refine ⟨⟨?_, ?_⟩, ?_⟩
        · intro _
          exact ⟨⟨d1, rfl⟩, ⟨d2, rfl⟩, ⟨d3, rfl⟩⟩
        · intro _
          exact ⟨⟨pv, pz, pw⟩, s3, hdl⟩
        · intro e st1 heq
          rw [hdl] at heq
          simp at heq

theorem download_all_or_nothing_witness :
    DLError.fetchFailedAfter .VKEY "01x01" 1 (.httpFailed 400 "bad") = .pathTraversal "01x01"
    ∨ (∃ p, DLError.fetchFailedAfter .VKEY "01x01" 1 (.httpFailed 400 "bad") =
        .cachedReadFailed p)
    ∨ ∃ k c, (k = ArtifactName.VKEY ∨ k = ArtifactName.ZKEY ∨ k = thirdArtifactName false) ∧
        DLError.fetchFailedAfter .VKEY "01x01" 1 (.httpFailed 400 "bad") =
          .fetchFailedAfter k "01x01" (0 + 1) c :=
  (download_all_or_nothing_wrapped_error (fun l => l)
    (fun _ => NetResponse.httpError 400 "bad") 0 1 false (fun _ => 0) false "01x01"
    ⟨[], false, 0, 0⟩).2
    (DLError.fetchFailedAfter .VKEY "01x01" 1 (.httpFailed 400 "bad"))
    ⟨[], true, 3, 3⟩ (by decide)

/-- C8: decompression is the identity for the verification key and, for
every other artifact kind, applies the Brotli decodec; when the external
codec pair is inverse — the premise the design places on the network-side
compression — the round trip decompress of compress of x returns x for
every byte sequence x. -/
theorem decompress_identity_vkey_and_roundtrip (dec comp : List Nat → List Nat)
    (hinv : ∀ x, dec (comp x) = x) (data : List Nat) (name : ArtifactName) :
    decompressArtifact dec data .VKEY = data
    ∧ (name ≠ .VKEY → decompressArtifact dec (comp data) name = data) := by
  refine ⟨rfl, ?_⟩
  intro hne
  simp [decompressArtifact, hne, hinv]

theorem decompress_roundtrip_witness :
    decompressArtifact (List.drop 1) [5, 6] .VKEY = [5, 6]
    ∧ decompressArtifact (List.drop 1) ((fun l => 0 :: l) [5, 6]) .ZKEY = [5, 6] :=
  ⟨(decompress_identity_vkey_and_roundtrip (List.drop 1) (fun l => 0 :: l)
      (fun _ => rfl) [5, 6] .ZKEY).1,
   (decompress_identity_vkey_and_roundtrip (List.drop 1) (fun l => 0 :: l)
      (fun _ => rfl) [5, 6] .ZKEY).2 (by decide)⟩

/-- C9: the delay before retry k is 2 to the k times the base delay, plus,
with jitter enabled, the drawn random fraction times the base delay — a
value in the interval from zero inclusive to the base delay exclusive; each
delay is at least 2 to the k times the base delay and consecutive delays
are monotonically non-decreasing for any pair of jitter draws. -/
theorem retry_delay_formula_and_monotone (k : Nat) (bD r1 r2 : ℚ) (jit : Bool)
    (hb : 0 < bD) (h1 : 0 ≤ r1) (h2 : r1 < 1) (h3 : 0 ≤ r2) (h4 : r2 < 1) :
    calculateRetryDelay k bD false r1 = 2 ^ k * bD
    ∧ calculateRetryDelay k bD true r1 = 2 ^ k * bD + r1 * bD
    ∧ 0 ≤ r1 * bD ∧ r1 * bD < bD
    ∧ 2 ^ k * bD ≤ calculateRetryDelay k bD jit r1
    ∧ calculateRetryDelay k bD jit r1 ≤ calculateRetryDelay (k + 1) bD jit r2 := by
  have hpow : (1 : ℚ) ≤ 2 ^ k := by
    induction k with
    | zero => norm_num
    | succ n ih =>
      rw [pow_succ]
      nlinarith
  have hjb : 0 ≤ r1 * bD := mul_nonneg h1 hb.le
  have hjb2 : 0 ≤ r2 * bD := mul_nonneg h3 hb.le
  have hlt : r1 * bD < bD := by
    have := mul_lt_mul_of_pos_right h2 hb
    simpa using this
  have hbig : bD ≤ 2 ^ k * bD := by
    have := mul_le_mul_of_nonneg_right hpow hb.le
    simpa using this
  refine ⟨by simp [calculateRetryDelay], by simp [calculateRetryDelay], hjb, hlt, ?_, ?_⟩
  · cases jit with
    | false => simp [calculateRetryDelay]
    | true =>
      simp only [calculateRetryDelay, if_true]
      nlinarith
  · cases jit with
    | false =>
      simp only [calculateRetryDelay, Bool.false_eq_true, if_false]
      rw [pow_succ]
      nlinarith
    | true =>
      simp only [calculateRetryDelay, if_true]
      rw [pow_succ]
      nlinarith

theorem retry_delay_witness :
    calculateRetryDelay 1 1000 false (1 / 2) = 2 ^ 1 * 1000
    ∧ calculateRetryDelay 1 1000 true (1 / 2) = 2 ^ 1 * 1000 + (1 / 2) * 1000
    ∧ (0 : ℚ) ≤ (1 / 2) * 1000 ∧ (1 / 2 : ℚ) * 1000 < 1000
    ∧ 2 ^ 1 * 1000 ≤ calculateRetryDelay 1 1000 true (1 / 2)
    ∧ calculateRetryDelay 1 1000 true (1 / 2) ≤ calculateRetryDelay (1 + 1) 1000 true (1 / 3) :=
  retry_delay_formula_and_monotone 1 1000 (1 / 2) (1 / 3) true (by norm_num) (by norm_num)
    (by norm_num) (by norm_num) (by norm_num)

/-- C10: the in-process ArtifactCache never evicts implicitly: get after
set on a key triple returns exactly the bytes that were set, a set never
removes any present entry, and only clear empties the cache — after clear
the size is zero and every get returns undefined. -/
theorem artifact_cache_no_implicit_eviction (c : ArtifactCache) (rootCid variant : String)
    (name : ArtifactName) (data : List Nat) :
    (c.set rootCid variant name data).get rootCid variant name = some data
    ∧ (∀ r v n, c.get r v n ≠ none → (c.set rootCid variant name data).get r v n ≠ none)
    ∧ c.clear.size = 0
    ∧ (∀ r v n, c.clear.get r v n = none) := by
  refine ⟨storeLookup_insert_self _ _ _, ?_, rfl, fun r v n => rfl⟩
  intro r v n hne
  have hne2 : storeLookup c.cache (getCacheKey r v n) ≠ none := hne
  by_cases hk : getCacheKey r v n = getCacheKey rootCid variant name
  · show storeLookup (storeInsert c.cache (getCacheKey rootCid variant name) data)
      (getCacheKey r v n) ≠ none
    rw [hk, storeLookup_insert_self]
    exact Option.some_ne_none data
  · show storeLookup (storeInsert c.cache (getCacheKey rootCid variant name) data)
      (getCacheKey r v n) ≠ none
    rw [storeLookup_insert_ne _ _ _ _ hk]
    exact hne2

theorem artifact_cache_witness :
    ((ArtifactCache.mk [("a-b-zkey", [5])]).set "r" "v" .VKEY [1, 2]).get "r" "v" .VKEY =
      some [1, 2]
    ∧ ((ArtifactCache.mk [("a-b-zkey", [5])]).set "r" "v" .VKEY [1, 2]).get "a" "b" .ZKEY ≠
      none :=
  ⟨(artifact_cache_no_implicit_eviction ⟨[("a-b-zkey", [5])]⟩ "r" "v" .VKEY [1, 2]).1,
   (artifact_cache_no_implicit_eviction ⟨[("a-b-zkey", [5])]⟩ "r" "v" .VKEY [1, 2]).2.1
     "a" "b" .ZKEY (by decide)⟩
